import Mathlib

/-!
Shallow embedding of the Tetris game-state engine from
`src/33600414_JarelEloysiusGomes/2023Assignment1/src/main.ts`.

Coordinates are integers (JS numbers used as integer coordinates), scores and
levels are naturals (they are only ever 0-initialised and incremented).
JS functions that can throw a `TypeError` (an out-of-bounds array element
access such as `grid[-1][x]`) are embedded as `Option`-valued functions,
`none` standing for the thrown exception; JS array element reads that merely
yield `undefined` (which is falsy) are embedded with a `false` default.
Calls to `generateANewTetrimino()` (ambient `Math.random`) are embedded by
passing the generated piece as an explicit oracle argument.
-/

namespace Tetris

/-- `Block` from main.ts line 46: `{ x: number, y: number, color: string }`. -/
structure Block where
  x : Int
  y : Int
  color : String
deriving DecidableEq, Repr

/-- `Tetrimino` from main.ts line 47: `Block[]`. -/
abbrev Tetrimino := List Block

/-- The game grid, `boolean[][]` in main.ts. -/
abbrev Grid := List (List Bool)

/-- `Constants.GRID_WIDTH` (main.ts line 30). -/
def GRID_WIDTH : Nat := 10

/-- `Constants.GRID_HEIGHT` (main.ts line 31). -/
def GRID_HEIGHT : Nat := 20

/-- `State` from main.ts lines 67-76. -/
structure State where
  grid : Grid
  currentTetrimino : Tetrimino
  nextTetrimino : Tetrimino
  gameOver : Bool
  userScore : Nat
  userLevel : Nat
  highScore : Nat
  paused : Bool
deriving DecidableEq, Repr

/-- The grid of `initialState` (main.ts line 83):
`Array.from(\x7blength: 20\x7d, () => Array(10).fill(false))`. -/
def emptyGrid : Grid := List.replicate 20 (List.replicate 10 false)

/-- `initialState` (main.ts lines 82-91).  The two module-load calls to
`generateANewTetrimino()` are passed in as oracle arguments `p₁`, `p₂`. -/
def initialState (p₁ p₂ : Tetrimino) : State :=
  { grid := emptyGrid
    currentTetrimino := p₁
    nextTetrimino := p₂
    gameOver := false
    userScore := 0
    userLevel := 1
    highScore := 0
    paused := false }

/-- The global `goldTetrimino` template (main.ts lines 97-100): a single
gold block at `(0, 0)`. -/
def goldTetrimino : Tetrimino := [⟨0, 0, "gold"⟩]

/-- JS array element read `l[i]`: `undefined` (modelled `none`) when the
index is negative or past the end. -/
def jsIndex (l : List α) (i : Int) : Option α :=
  if i < 0 then none else l[i.toNat]?

/-- `isCollisionDetected` (main.ts lines 121-125):
`movedTetrimino.some(block => block.y >= Constants.GRID_HEIGHT || grid[block.y][block.x])`.
JS `.some` evaluates the callback left to right and short-circuits at the
first truthy result.  When `block.y` is negative (and `block.y >= 20` is
false), `grid[block.y]` is `undefined` and `undefined[block.x]` throws a
`TypeError`: that run is modelled as `none`.  When the row exists but
`block.x` is out of range, `row[block.x]` is `undefined`, which is falsy. -/
def isCollisionDetectedE : Tetrimino → Grid → Option Bool
  | [], _ => some false
  | b :: rest, grid =>
    if (GRID_HEIGHT : Int) ≤ b.y then some true
    else
      match jsIndex grid b.y with
      | none => none
      | some row =>
        if (jsIndex row b.x).getD false then some true
        else isCollisionDetectedE rest grid

/-- `placeTetrimino` (main.ts lines 437-460): a `reduce` over the blocks,
each step mapping over the rows (with index) and over the cells (with
index), setting the cell at the block coordinates to `true`. -/
def placeTetrimino (tetrimino : Tetrimino) (grid : Grid) : Grid :=
  tetrimino.foldl
    (fun newGrid block =>
      newGrid.mapIdx fun rowIndex row =>
        if (rowIndex : Int) = block.y then
          row.mapIdx fun colIndex cell =>
            if (colIndex : Int) = block.x then true else cell
        else row)
    grid

/-- Result record of `clearLines` (main.ts line 471). -/
structure ClearResult where
  grid : Grid
  linesCleared : Nat
  goldLineCleared : Bool
deriving DecidableEq, Repr

/-- `row.every(cell => cell)` (main.ts line 481). -/
def rowComplete (row : List Bool) : Bool := row.all id

/-- The gold check of main.ts line 483:
`row.some((_, x) => goldTetrimino.some(block => block.x === x && block.y === state.linesCleared))`.
`row.some((_, x) => p x)` ranges `x` over the indices of `row`. -/
def goldHit (row : List Bool) (gold : Tetrimino) (linesCleared : Nat) : Bool :=
  (List.range row.length).any fun x =>
    gold.any fun block => block.x == (x : Int) && block.y == (linesCleared : Int)

/-- One step of the `reduce` in `clearLines` (main.ts lines 479-497). -/
def clearStep (gold : Tetrimino) (state : ClearResult) (row : List Bool) : ClearResult :=
  if rowComplete row then
    { grid := state.grid
      linesCleared := state.linesCleared + 1
      goldLineCleared := goldHit row gold state.linesCleared || state.goldLineCleared }
  else
    { grid := state.grid ++ [row]
      linesCleared := state.linesCleared
      goldLineCleared := state.goldLineCleared }

/-- `clearLines` (main.ts lines 471-507).  `grid[0].length` (main.ts
line 500) is embedded with `headD`; in JS it throws on an empty grid, which
never occurs at the call sites (the grid always has 20 rows there). -/
def clearLines (grid : Grid) (gold : Tetrimino) : ClearResult :=
  let result := grid.foldl (clearStep gold) ⟨[], 0, false⟩
  { grid :=
      List.replicate result.linesCleared
        (List.replicate (grid.headD []).length false) ++ result.grid
    linesCleared := result.linesCleared
    goldLineCleared := result.goldLineCleared }

/-- `processCollision` (main.ts lines 133-175).  Note three facts of the
source faithfully kept here: the level is computed from `newScore`, which
does not include `goldScoreIncrease`; the non-game-over branch sets
`nextTetrimino` to `newTetrimino` (= the old `nextTetrimino`), the unused
`newNextTetrimino = generateANewTetrimino()` of line 160 not appearing in
the returned object; and the game-over branch keeps the old `grid`,
`currentTetrimino` and `userLevel` via the spread of `s`. -/
def processCollisionE (s : State) : Option State :=
  if s.paused then some s
  else
    let r := clearLines (placeTetrimino s.currentTetrimino s.grid) goldTetrimino
    let newScore := s.userScore + r.linesCleared * 100
    let goldLines := goldTetrimino.filter fun block => block.y == (r.linesCleared : Int) - 1
    let goldScoreIncrease := if r.goldLineCleared then goldLines.length * 200 else 0
    let newHighScore := max s.highScore (newScore + goldScoreIncrease)
    let newLevel := newScore / 1000 + 1
    let newTetrimino := s.nextTetrimino
    (isCollisionDetectedE newTetrimino r.grid).map fun c =>
      if c then
        { s with gameOver := true
                 userScore := newScore + goldScoreIncrease
                 highScore := newHighScore }
      else
        { grid := r.grid
          currentTetrimino := newTetrimino
          nextTetrimino := newTetrimino
          gameOver := false
          userScore := newScore + goldScoreIncrease
          userLevel := newLevel
          highScore := newHighScore
          paused := s.paused }

/-- `block => (\x7b...block, y: block.y + 1\x7d)`: the one-row-down shift used by
`Tick`, `moveTetriminoDown` and `instantDROP`. -/
def moveDownOne (t : Tetrimino) : Tetrimino :=
  t.map fun block => { block with y := block.y + 1 }

/-- `block => (\x7b...block, y: block.y - 1\x7d)`: the back-up-one-row shift of
`instantDROP` (main.ts line 345). -/
def moveUpOne (t : Tetrimino) : Tetrimino :=
  t.map fun block => { block with y := block.y - 1 }

/-- `Tick.apply` (main.ts lines 407-428).  `fresh` is the oracle value of
`generateANewTetrimino()`.  The body never inspects `s.paused` (its
comment announces a pause check that is absent). -/
def tickApply (fresh : Tetrimino) (s : State) : Option State :=
  let movedTetrimino := moveDownOne s.currentTetrimino
  (isCollisionDetectedE movedTetrimino s.grid).bind fun c =>
    if c then (processCollisionE s).map fun s₁ => { s₁ with nextTetrimino := fresh }
    else some { s with currentTetrimino := movedTetrimino, nextTetrimino := fresh }

/-- `moveTetriminoLeft.apply` (main.ts lines 185-205).  JS evaluates both
`isLeftCollision` and `isGridCollision` before the ternary, so a throwing
collision check aborts even when the wall check is already true. -/
def moveLeftApply (s : State) : Option State :=
  let newTetrimino := s.currentTetrimino.map fun block => { block with x := block.x - 1 }
  let isLeftCollision := newTetrimino.any fun block => decide (block.x < 0)
  (isCollisionDetectedE newTetrimino s.grid).map fun isGridCollision =>
    if isLeftCollision || isGridCollision then s
    else { s with currentTetrimino := newTetrimino }

/-- `moveTetriminoRight.apply` (main.ts lines 212-234). -/
def moveRightApply (s : State) : Option State :=
  let newTetrimino := s.currentTetrimino.map fun block => { block with x := block.x + 1 }
  let isRightCollision := newTetrimino.any fun block => decide ((GRID_WIDTH : Int) ≤ block.x)
  (isCollisionDetectedE newTetrimino s.grid).map fun isGridCollision =>
    if isRightCollision || isGridCollision then s
    else { s with currentTetrimino := newTetrimino }

/-- `moveTetriminoDown.apply` (main.ts lines 242-262). -/
def moveDownApply (fresh : Tetrimino) (s : State) : Option State :=
  let newTetrimino := moveDownOne s.currentTetrimino
  (isCollisionDetectedE newTetrimino s.grid).bind fun c =>
    if c then (processCollisionE s).map fun s₁ => { s₁ with nextTetrimino := fresh }
    else some { s with currentTetrimino := newTetrimino, nextTetrimino := fresh }

/-- `rotateTetrimino` (main.ts lines 270-281).  On an empty list the JS
`map` never invokes its callback, so the undefined `origin` is never
dereferenced and the result is `[]`. -/
def rotateTetrimino : Tetrimino → Tetrimino
  | [] => []
  | origin :: rest =>
    (origin :: rest).map fun b =>
      ⟨origin.x - (b.y - origin.y), origin.y + (b.x - origin.x), b.color⟩

/-- `willExceedEdges` (main.ts lines 313-323).  `grid[0].length` throws on
an empty grid (modelled `none`). -/
def willExceedEdgesE (tetrimino : Tetrimino) (grid : Grid) : Option Bool :=
  (jsIndex grid 0).map fun row0 =>
    tetrimino.any fun b =>
      decide (b.x < 0) || decide ((row0.length : Int) ≤ b.x) ||
        decide ((grid.length : Int) ≤ b.y)

/-- `Rotate.apply` (main.ts lines 289-304): both checks are evaluated, then
the rotation is rejected if either holds. -/
def rotateApply (s : State) : Option State :=
  let rotatedTetrimino := rotateTetrimino s.currentTetrimino
  (isCollisionDetectedE rotatedTetrimino s.grid).bind fun isGridCollision =>
    (willExceedEdgesE rotatedTetrimino s.grid).map fun willExceed =>
      if isGridCollision || willExceed then s
      else { s with currentTetrimino := rotatedTetrimino }

/-- The `while (!isCollisionDetected(...))` loop of `instantDROP.apply`
(main.ts lines 341-343), modelled with fuel: the result is the first
colliding position reached.  Fuel exhaustion returns `none` (in JS the
loop simply diverges on, e.g., an empty piece); `GRID_HEIGHT + 1` steps are
proved sufficient below for any non-empty piece whose blocks sit at
non-negative rows of a 20-row grid. -/
def dropLoopE (grid : Grid) : Nat → Tetrimino → Option Tetrimino
  | 0, _ => none
  | fuel + 1, t =>
    match isCollisionDetectedE t grid with
    | none => none
    | some true => some t
    | some false => dropLoopE grid fuel (moveDownOne t)

/-- `instantDROP.apply` (main.ts lines 335-356): run the drop loop, back up
one row, re-check collision at the backed-up position; only when that check
is still true does `processCollision` run. -/
def instantDropApply (fresh : Tetrimino) (s : State) : Option State :=
  (dropLoopE s.grid (GRID_HEIGHT + 1) s.currentTetrimino).bind fun stopped =>
    let newTetrimino := moveUpOne stopped
    (isCollisionDetectedE newTetrimino s.grid).bind fun c =>
      if c then (processCollisionE s).map fun s₁ => { s₁ with nextTetrimino := fresh }
      else some { s with currentTetrimino := newTetrimino, nextTetrimino := fresh }

/-- `Restart.apply` (main.ts lines 373-378): the spread of the module-level
`initialState`, whose two generated pieces are the oracle values `p₁`,
`p₂`, with only `highScore` taken from `s`. -/
def restartApply (p₁ p₂ : Tetrimino) (s : State) : State :=
  { initialState p₁ p₂ with highScore := s.highScore }

/-- `TogglePauseResume.apply` (main.ts lines 385-399).  The class keeps a
private mutable `isPaused` flag (initially `false` on every `new`
instance); `apply` branches on that flag, not on `s.paused`.  The flag
value at call time is passed explicitly and the updated flag is returned
alongside the new state. -/
def togglePauseResumeApply (isPaused : Bool) (s : State) : Bool × State :=
  if !isPaused then (true, { s with paused := true })
  else (false, { s with paused := false })

/-- One reducer action of the merged stream (main.ts lines 787-801), with
every `generateANewTetrimino()` oracle value carried in the constructor.
`pause` carries the acting `TogglePauseResume` instance flag at call time
(the program constructs a fresh instance per keypress, so the flag is
`false` there). -/
inductive Act where
  | tick (fresh : Tetrimino)
  | left
  | right
  | down (fresh : Tetrimino)
  | rot
  | drop (fresh : Tetrimino)
  | restart
  | pause (instanceFlag : Bool)
deriving Repr

/-- Dispatch of `scan((s, action) => action.apply(s), initialState)`
(main.ts lines 799-801); `ip` holds the module-load initial pieces. -/
def applyAct (ip : Tetrimino × Tetrimino) : Act → State → Option State
  | .tick fresh, s => tickApply fresh s
  | .left, s => moveLeftApply s
  | .right, s => moveRightApply s
  | .down fresh, s => moveDownApply fresh s
  | .rot, s => rotateApply s
  | .drop fresh, s => instantDropApply fresh s
  | .restart, s => some (restartApply ip.1 ip.2 s)
  | .pause flag, s => some (togglePauseResumeApply flag s).2

/-- Folding a whole action sequence from the initial state; `none` when
some step throws or diverges. -/
def runActs (ip : Tetrimino × Tetrimino) (acts : List Act) : Option State :=
  acts.foldlM (fun s a => applyAct ip a s) (initialState ip.1 ip.2)

/-- The grid shape invariant of the spec: 20 rows of 10 cells. -/
def gridWellFormed (g : Grid) : Prop :=
  g.length = GRID_HEIGHT ∧ ∀ r ∈ g, r.length = GRID_WIDTH

instance : DecidablePred gridWellFormed := fun g => by
  unfold gridWellFormed; infer_instance

/-- JS read of the cell `grid[y][x]`, with the falsy default `false` for an
`undefined` element. -/
def cellAt (g : Grid) (y x : Int) : Bool :=
  ((jsIndex g y).bind fun row => jsIndex row x).getD false

/-! ### Lemmas about `isCollisionDetectedE` -/

theorem isCollisionDetectedE_eq (t : Tetrimino) (g : Grid)
    (hy : ∀ b ∈ t, 0 ≤ b.y) (hg : g.length = GRID_HEIGHT) :
    isCollisionDetectedE t g =
      some (t.any fun b =>
        decide ((GRID_HEIGHT : Int) ≤ b.y) || cellAt g b.y b.x) := by
  induction t with
  | nil => simp [isCollisionDetectedE]
  | cons b rest ih =>
    have hb : (0 : Int) ≤ b.y := hy b (List.mem_cons_self b rest)
    have ih' := ih fun c hc => hy c (List.mem_cons_of_mem b hc)
    by_cases h20 : (GRID_HEIGHT : Int) ≤ b.y
    · simp [isCollisionDetectedE, h20]
    · have hlt : b.y.toNat < g.length := by
        rw [hg]; unfold GRID_HEIGHT; unfold GRID_HEIGHT at h20; omega
      have hrow : jsIndex g b.y = some g[b.y.toNat] := by
        unfold jsIndex
        rw [if_neg (by omega), List.getElem?_eq_getElem hlt]
      have hcell : cellAt g b.y b.x =
          (jsIndex g[b.y.toNat] b.x).getD false := by
        unfold cellAt; rw [hrow]; rfl
      cases hc : (jsIndex g[b.y.toNat] b.x).getD false with
      | true => simp [isCollisionDetectedE, h20, hrow, hc, hcell]
      | false => simp [isCollisionDetectedE, h20, hrow, hc, hcell, ih']

theorem collide_false_y_lt {t : Tetrimino} {g : Grid}
    (h : isCollisionDetectedE t g = some false) :
    ∀ b ∈ t, b.y < (GRID_HEIGHT : Int) := by
  induction t with
  | nil => intro b hb; cases hb
  | cons b rest ih =>
    intro c hc
    rw [isCollisionDetectedE] at h
    by_cases h20 : (GRID_HEIGHT : Int) ≤ b.y
    · rw [if_pos h20] at h; cases h
    · rw [if_neg h20] at h
      rcases hc with _ | ⟨_, hc⟩
      · omega
      · cases hrow : jsIndex g b.y with
        | none => rw [hrow] at h; cases h
        | some row =>
          rw [hrow] at h
          cases hcv : (jsIndex row b.x).getD false with
          | true => simp [hcv] at h
          | false => simp only [hcv, Bool.false_eq_true, if_false] at h
                     exact ih h c hc

/-- C5 (counterexample): a piece with a block at row `-1` makes
`isCollisionDetected` fail on the empty 20×10 grid — in JS, `grid[-1]` is
`undefined` and `undefined[0]` throws a `TypeError` — so the function is
not total over such pieces, contrary to the claim that it returns without
error on every piece including ones with a negative row index. -/
theorem isCollision_neg_row_errors :
    isCollisionDetectedE [⟨0, -1, "cyan"⟩] emptyGrid = none := by decide

/-- C5 (amended): `isCollisionDetected` is pure, and for every piece whose
blocks all have non-negative row index and every `GRID_HEIGHT`-row grid it
returns without error, with value `true` iff some block has row index
`≥ GRID_HEIGHT` or the grid cell at that block's (row, column) is occupied;
totality fails only for blocks with negative row index (the JS evaluation
of `grid[block.y][block.x]` throws there). -/
theorem isCollision_total_iff (t : Tetrimino) (g : Grid)
    (hy : ∀ b ∈ t, 0 ≤ b.y) (hg : g.length = GRID_HEIGHT) :
    isCollisionDetectedE t g =
        some (t.any fun b =>
          decide ((GRID_HEIGHT : Int) ≤ b.y) || cellAt g b.y b.x) ∧
      (isCollisionDetectedE t g = some true ↔
        ∃ b ∈ t, (GRID_HEIGHT : Int) ≤ b.y ∨ cellAt g b.y b.x = true) := by
  have h := isCollisionDetectedE_eq t g hy hg
  refine ⟨h, ?_⟩
  rw [h]
  simp [List.any_eq_true, Bool.or_eq_true, decide_eq_true_eq]

/-- Witness for C5 (amended) at a concrete piece and grid. -/
theorem isCollision_total_iff_witness :
    ((∀ b ∈ ([⟨3, 2, "cyan"⟩] : Tetrimino), 0 ≤ b.y) ∧
        emptyGrid.length = GRID_HEIGHT) ∧
      (isCollisionDetectedE [⟨3, 2, "cyan"⟩] emptyGrid =
          some (([⟨3, 2, "cyan"⟩] : Tetrimino).any fun b =>
            decide ((GRID_HEIGHT : Int) ≤ b.y) || cellAt emptyGrid b.y b.x) ∧
        (isCollisionDetectedE [⟨3, 2, "cyan"⟩] emptyGrid = some true ↔
          ∃ b ∈ ([⟨3, 2, "cyan"⟩] : Tetrimino),
            (GRID_HEIGHT : Int) ≤ b.y ∨ cellAt emptyGrid b.y b.x = true)) :=
  ⟨⟨by decide, by decide⟩,
    isCollision_total_iff [⟨3, 2, "cyan"⟩] emptyGrid (by decide) (by decide)⟩

/-! ### Lemmas about `clearLines` -/

theorem clearFold_linesCleared (gold : Tetrimino) :
    ∀ (rows : List (List Bool)) (st : ClearResult),
      (rows.foldl (clearStep gold) st).linesCleared =
        st.linesCleared + rows.countP rowComplete := by
  intro rows
  induction rows with
  | nil => intro st; simp
  | cons row rest ih =>
    intro st
    by_cases h : rowComplete row
    · simp [clearStep, h, ih, List.countP_cons]
      omega
    · simp [clearStep, h, ih, List.countP_cons]

theorem clearFold_grid (gold : Tetrimino) :
    ∀ (rows : List (List Bool)) (st : ClearResult),
      (rows.foldl (clearStep gold) st).grid =
        st.grid ++ rows.filter fun r => !rowComplete r := by
  intro rows
  induction rows with
  | nil => intro st; simp
  | cons row rest ih =>
    intro st
    by_cases h : rowComplete row
    · simp [clearStep, h, ih, List.filter_cons]
    · simp [clearStep, h, ih, List.filter_cons]

theorem goldHit_goldTetrimino (row : List Bool) (lc : Nat) :
    goldHit row goldTetrimino lc =
      (decide (0 < row.length) && decide (lc = 0)) := by
  unfold goldHit goldTetrimino
  rw [Bool.eq_iff_iff]
  simp only [List.any_eq_true, List.mem_range, List.any_cons,
    List.any_nil, Bool.or_false, Bool.and_eq_true, beq_iff_eq,
    decide_eq_true_eq]
  constructor
  · rintro ⟨x, hx, h1, h2⟩
    omega
  · rintro ⟨h1, h2⟩
    exact ⟨0, by omega, by simp, by omega⟩

theorem clearFold_gold :
    ∀ (rows : List (List Bool)) (st : ClearResult), (∀ r ∈ rows, 0 < r.length) →
      (rows.foldl (clearStep goldTetrimino) st).goldLineCleared =
        (st.goldLineCleared ||
          (decide (st.linesCleared = 0) && rows.any rowComplete)) := by
  intro rows
  induction rows with
  | nil => intro st _; simp
  | cons row rest ih =>
    intro st hw
    have hrow : 0 < row.length := hw row (List.mem_cons_self row rest)
    have hrest : ∀ r ∈ rest, 0 < r.length :=
      fun r hr => hw r (List.mem_cons_of_mem row hr)
    by_cases h : rowComplete row
    · simp only [List.foldl_cons, clearStep, h, if_pos]
      rw [ih _ hrest]
      simp [goldHit_goldTetrimino, hrow, List.any_cons, h, Bool.or_comm]
    · simp only [List.foldl_cons, clearStep, h, if_neg, Bool.false_eq_true,
        not_false_iff, if_false]
      rw [ih _ hrest]
      simp [List.any_cons, h]

theorem countP_add_length_filter_not (p : List Bool → Bool) (g : Grid) :
    g.countP p + (g.filter fun r => !p r).length = g.length := by
  induction g with
  | nil => simp
  | cons r rest ih =>
    by_cases h : p r
    · simp [List.countP_cons, List.filter_cons, h]; omega
    · simp [List.countP_cons, List.filter_cons, h]; omega

theorem clearLines_split (g : Grid) (w : Nat) (hne : g ≠ [])
    (hw : ∀ r ∈ g, r.length = w) :
    (clearLines g goldTetrimino).linesCleared = g.countP rowComplete ∧
      (clearLines g goldTetrimino).grid =
        List.replicate (g.countP rowComplete) (List.replicate w false) ++
          g.filter (fun r => !rowComplete r) ∧
      (clearLines g goldTetrimino).grid.length = g.length := by
  have hhead : (g.headD []).length = w := by
    cases g with
    | nil => exact absurd rfl hne
    | cons r rest => exact hw r (List.mem_cons_self r rest)
  have hlc : (clearLines g goldTetrimino).linesCleared = g.countP rowComplete := by
    unfold clearLines
    simp only [clearFold_linesCleared, Nat.zero_add]
  have hgrid : (clearLines g goldTetrimino).grid =
      List.replicate (g.countP rowComplete) (List.replicate w false) ++
        g.filter (fun r => !rowComplete r) := by
    unfold clearLines
    simp only [clearFold_grid, clearFold_linesCleared, Nat.zero_add,
      List.nil_append, hhead]
  refine ⟨hlc, hgrid, ?_⟩
  rw [hgrid]
  simp [countP_add_length_filter_not rowComplete g]

/-- C6: on a non-empty rectangular grid, `clearLines` removes exactly the
complete rows, keeps the remaining rows in order, prefixes exactly
`linesCleared` all-`false` rows of the grid's width, and so preserves the
total row count. -/
theorem clearLines_conserves (g : Grid) (w : Nat) (hne : g ≠ [])
    (hw : ∀ r ∈ g, r.length = w) :
    (clearLines g goldTetrimino).linesCleared = g.countP rowComplete ∧
      (clearLines g goldTetrimino).grid =
        List.replicate (g.countP rowComplete) (List.replicate w false) ++
          g.filter (fun r => !rowComplete r) ∧
      (clearLines g goldTetrimino).grid.length = g.length :=
  clearLines_split g w hne hw

/-- Witness for C6 on a concrete 3×2 grid with two complete rows. -/
theorem clearLines_conserves_witness :
    (([[true, true], [false, true], [true, true]] : Grid) ≠ [] ∧
        ∀ r ∈ ([[true, true], [false, true], [true, true]] : Grid),
          r.length = 2) ∧
      ((clearLines [[true, true], [false, true], [true, true]]
            goldTetrimino).linesCleared =
          ([[true, true], [false, true], [true, true]] : Grid).countP
            rowComplete ∧
        (clearLines [[true, true], [false, true], [true, true]]
              goldTetrimino).grid =
          List.replicate
              (([[true, true], [false, true], [true, true]] : Grid).countP
                rowComplete) (List.replicate 2 false) ++
            ([[true, true], [false, true], [true, true]] : Grid).filter
              (fun r => !rowComplete r) ∧
        (clearLines [[true, true], [false, true], [true, true]]
              goldTetrimino).grid.length =
          ([[true, true], [false, true], [true, true]] : Grid).length) :=
  ⟨⟨by decide, by decide⟩,
    clearLines_conserves [[true, true], [false, true], [true, true]] 2
      (by decide) (by decide)⟩

/-- C9: because the global gold template is the single block `(0, 0)` and
its row tag is compared with the running cleared-line counter, a clear
reports `goldLineCleared` exactly when at least one line was cleared
(for any grid whose rows are non-empty). -/
theorem goldLineCleared_iff_lines_cleared (g : Grid)
    (hw : ∀ r ∈ g, 0 < r.length) :
    ((clearLines g goldTetrimino).goldLineCleared = true ↔
      1 ≤ (clearLines g goldTetrimino).linesCleared) := by
  unfold clearLines
  simp only [clearFold_gold g _ hw, clearFold_linesCleared]
  simp [List.any_eq_true, Nat.lt_iff_add_one_le, List.countP_pos_iff]

/-- Witness for C9 on a concrete grid with a complete row. -/
theorem goldLineCleared_iff_lines_cleared_witness :
    (∀ r ∈ ([[true, false], [true, true]] : Grid), 0 < r.length) ∧
      ((clearLines [[true, false], [true, true]]
            goldTetrimino).goldLineCleared = true ↔
        1 ≤ (clearLines [[true, false], [true, true]]
            goldTetrimino).linesCleared) :=
  ⟨by decide,
    goldLineCleared_iff_lines_cleared [[true, false], [true, true]]
      (by decide)⟩

/-! ### Theorems about `processCollision` (landing) -/

/-- C3 (amended): on a non-game-over landing the new score is
`oldScore + linesCleared * 100 + bonus` and the new high score is the max
of the old one and that score, but the new level is
`floor((oldScore + linesCleared * 100) / 1000) + 1` — the bonus component
is excluded from the level computation. -/
theorem processCollision_landing (s : State) (r : ClearResult) (bonus : Nat)
    (hr : r = clearLines (placeTetrimino s.currentTetrimino s.grid) goldTetrimino)
    (hb : bonus = if r.goldLineCleared then
      (goldTetrimino.filter fun block =>
        block.y == (r.linesCleared : Int) - 1).length * 200 else 0)
    (hp : s.paused = false)
    (hc : isCollisionDetectedE s.nextTetrimino r.grid = some false) :
    processCollisionE s = some
      { grid := r.grid
        currentTetrimino := s.nextTetrimino
        nextTetrimino := s.nextTetrimino
        gameOver := false
        userScore := s.userScore + r.linesCleared * 100 + bonus
        userLevel := (s.userScore + r.linesCleared * 100) / 1000 + 1
        highScore := max s.highScore (s.userScore + r.linesCleared * 100 + bonus)
        paused := s.paused } := by
  subst hr
  subst hb
  unfold processCollisionE
  simp only [hp, Bool.false_eq_true, if_false, hc, Option.map_some]
  rw [Nat.add_assoc]
  rfl

/-- The concrete landing state for C3: score 700, the bottom row complete,
a one-block current piece at `(0, 0)` and a safe next piece at `(5, 5)`. -/
def stateC3 : State :=
  { grid := List.replicate 19 (List.replicate 10 false) ++ [List.replicate 10 true]
    currentTetrimino := [⟨0, 0, "cyan"⟩]
    nextTetrimino := [⟨5, 5, "blue"⟩]
    gameOver := false
    userScore := 700
    userLevel := 1
    highScore := 0
    paused := false }

/-- C3 (counterexample): landing `stateC3` clears one line and the gold
bonus applies, so the stored score becomes `700 + 100 + 200 = 1000`, yet
the stored level is `1`, not `floor(1000 / 1000) + 1 = 2`: the level
computation does not include the bonus component of the new score. -/
theorem processCollision_level_excludes_bonus :
    (processCollisionE stateC3).map (fun s => (s.userScore, s.userLevel)) =
        some (1000, 1) ∧
      (1000 : Nat) / 1000 + 1 ≠ 1 := by decide

/-- Witness for C3 (amended) at `stateC3`. -/
theorem processCollision_landing_witness :
    stateC3.paused = false ∧
      processCollisionE stateC3 = some
        { grid := List.replicate 10 false ::
            (true :: List.replicate 9 false) ::
              List.replicate 18 (List.replicate 10 false)
          currentTetrimino := [⟨5, 5, "blue"⟩]
          nextTetrimino := [⟨5, 5, "blue"⟩]
          gameOver := false
          userScore := 1000
          userLevel := 1
          highScore := 1000
          paused := false } :=
  ⟨rfl,
    processCollision_landing stateC3
      ⟨List.replicate 10 false ::
          (true :: List.replicate 9 false) ::
            List.replicate 18 (List.replicate 10 false), 1, true⟩
      200 (by decide) (by decide) rfl (by decide)⟩

/-- C10: when the promoted next piece immediately collides with the
post-clear grid, the returned state is the input state with only
`gameOver`, `userScore` and `highScore` replaced — the pre-landing `grid`,
`currentTetrimino`, `nextTetrimino`, `userLevel` and `paused` are kept
(the landed piece is never merged and no rows are removed). -/
theorem processCollision_gameover_frame (s : State) (r : ClearResult) (bonus : Nat)
    (hr : r = clearLines (placeTetrimino s.currentTetrimino s.grid) goldTetrimino)
    (hb : bonus = if r.goldLineCleared then
      (goldTetrimino.filter fun block =>
        block.y == (r.linesCleared : Int) - 1).length * 200 else 0)
    (hp : s.paused = false)
    (hc : isCollisionDetectedE s.nextTetrimino r.grid = some true) :
    processCollisionE s = some
      { s with gameOver := true
               userScore := s.userScore + r.linesCleared * 100 + bonus
               highScore := max s.highScore
                 (s.userScore + r.linesCleared * 100 + bonus) } := by
  subst hr
  subst hb
  unfold processCollisionE
  simp only [hp, Bool.false_eq_true, if_false, hc, Option.map_some]
  rw [Nat.add_assoc]
  rfl

/-- The concrete state for C10: cell `(0, 0)` occupied, current piece at
`(1, 0)` (landing completes no row), next piece spawning right onto the
occupied cell `(0, 0)`. -/
def stateC10 : State :=
  { grid := (true :: List.replicate 9 false) ::
      List.replicate 19 (List.replicate 10 false)
    currentTetrimino := [⟨1, 0, "red"⟩]
    nextTetrimino := [⟨0, 0, "blue"⟩]
    gameOver := false
    userScore := 300
    userLevel := 1
    highScore := 250
    paused := false }

/-- Witness for C10 at `stateC10`. -/
theorem processCollision_gameover_frame_witness :
    stateC10.paused = false ∧
      processCollisionE stateC10 = some
        { stateC10 with gameOver := true
                        userScore := 300
                        highScore := 300 } :=
  ⟨rfl,
    processCollision_gameover_frame stateC10
      ⟨(true :: true :: List.replicate 8 false) ::
          List.replicate 19 (List.replicate 10 false), 0, false⟩
      0 (by decide) (by decide) rfl (by decide)⟩

/-! ### Lemmas about the instant-drop loop -/

theorem moveUpOne_moveDownOne (t : Tetrimino) : moveUpOne (moveDownOne t) = t := by
  induction t with
  | nil => rfl
  | cons b rest ih =>
    cases b
    simp only [moveUpOne, moveDownOne, List.map_cons, Int.add_sub_cancel] at ih ⊢
    simp_all [moveUpOne, moveDownOne]

theorem moveDownOne_moveUpOne (t : Tetrimino) : moveDownOne (moveUpOne t) = t := by
  induction t with
  | nil => rfl
  | cons b rest ih =>
    cases b
    simp only [moveDownOne, moveUpOne, List.map_cons, Int.sub_add_cancel] at ih ⊢
    simp_all [moveDownOne, moveUpOne]

theorem isCollision_isSome (t : Tetrimino) (g : Grid)
    (hy : ∀ b ∈ t, 0 ≤ b.y) (hg : g.length = GRID_HEIGHT) :
    (isCollisionDetectedE t g).isSome := by
  rw [isCollisionDetectedE_eq t g hy hg]; rfl

theorem dropLoopE_some_collides (g : Grid) :
    ∀ (fuel : Nat) (t t' : Tetrimino), dropLoopE g fuel t = some t' →
      isCollisionDetectedE t' g = some true := by
  intro fuel
  induction fuel with
  | zero => intro t t' h; cases h
  | succ fuel ih =>
    intro t t' h
    rw [dropLoopE] at h
    cases hc : isCollisionDetectedE t g with
    | none => rw [hc] at h; cases h
    | some c =>
      cases c
      · rw [hc] at h
        exact ih _ _ h
      · rw [hc] at h
        injection h with h
        subst h
        exact hc

theorem dropLoopE_isSome (g : Grid) (hg : g.length = GRID_HEIGHT) :
    ∀ (fuel : Nat) (t : Tetrimino), (∀ b ∈ t, 0 ≤ b.y) →
      (∀ b ∈ t, b.y ≤ (GRID_HEIGHT : Int)) →
      (∃ b ∈ t, (GRID_HEIGHT : Int) < b.y + (fuel : Int)) →
      (dropLoopE g fuel t).isSome := by
  intro fuel
  induction fuel with
  | zero =>
    rintro t hy hub ⟨b, hb, hlt⟩
    have := hub b hb
    simp only [Nat.cast_zero, Int.add_zero] at hlt
    omega
  | succ fuel ih =>
    rintro t hy hub ⟨b, hb, hlt⟩
    have hsome := isCollision_isSome t g hy hg
    rw [dropLoopE]
    cases hc : isCollisionDetectedE t g with
    | none => rw [hc] at hsome; cases hsome
    | some c =>
      cases c
      · have hylt := collide_false_y_lt hc
        apply ih (moveDownOne t)
        · intro b2 hb2
          rcases List.mem_map.mp hb2 with ⟨a, ha, rfl⟩
          have := hy a ha
          simp only
          omega
        · intro b2 hb2
          rcases List.mem_map.mp hb2 with ⟨a, ha, rfl⟩
          have := hylt a ha
          simp only
          omega
        · refine ⟨{ b with y := b.y + 1 }, List.mem_map_of_mem _ hb, ?_⟩
          simp only
          push_cast at hlt ⊢
          omega
      · rfl

theorem dropLoopE_backup (g : Grid) :
    ∀ (fuel : Nat) (t t' : Tetrimino),
      isCollisionDetectedE t g = some false →
      dropLoopE g fuel t = some t' →
      isCollisionDetectedE (moveUpOne t') g = some false := by
  intro fuel
  induction fuel with
  | zero => intro t t' _ h; cases h
  | succ fuel ih =>
    intro t t' h0 h
    rw [dropLoopE, h0] at h
    cases hc : isCollisionDetectedE (moveDownOne t) g with
    | none =>
      cases fuel with
      | zero => cases h
      | succ k => rw [dropLoopE, hc] at h; cases h
    | some c =>
      cases c
      · exact ih _ _ hc h
      · cases fuel with
        | zero => cases h
        | succ k =>
          rw [dropLoopE, hc] at h
          injection h with h
          subst h
          rw [moveUpOne_moveDownOne]
          exact h0

/-- C4 (amended): for a state whose non-empty current piece sits at
non-negative rows of the 20-row grid in a non-colliding position,
`instantDROP` moves the piece straight down to the last non-colliding
position (one more row down would collide) — but it does NOT run the
landing sequence in that transition: the grid, scores, flags and level are
untouched and only `currentTetrimino` (dropped) and `nextTetrimino`
(regenerated) change; the landing happens on a later Tick/MoveDown. -/
theorem instantDrop_no_landing (s : State) (fresh : Tetrimino)
    (hne : s.currentTetrimino ≠ [])
    (hy : ∀ b ∈ s.currentTetrimino, 0 ≤ b.y)
    (hg : s.grid.length = GRID_HEIGHT)
    (hnc : isCollisionDetectedE s.currentTetrimino s.grid = some false) :
    ∃ stopped,
      dropLoopE s.grid (GRID_HEIGHT + 1) s.currentTetrimino = some stopped ∧
        isCollisionDetectedE (moveUpOne stopped) s.grid = some false ∧
        isCollisionDetectedE (moveDownOne (moveUpOne stopped)) s.grid = some true ∧
        instantDropApply fresh s =
          some { s with currentTetrimino := moveUpOne stopped
                        nextTetrimino := fresh } := by
  have hub : ∀ b ∈ s.currentTetrimino, b.y ≤ (GRID_HEIGHT : Int) :=
    fun b hb => le_of_lt (collide_false_y_lt hnc b hb)
  obtain ⟨b, hb⟩ := List.exists_mem_of_ne_nil _ hne
  have hex : ∃ c ∈ s.currentTetrimino,
      (GRID_HEIGHT : Int) < c.y + ((GRID_HEIGHT + 1 : Nat) : Int) := by
    refine ⟨b, hb, ?_⟩
    have := hy b hb
    push_cast
    omega
  have hsome := dropLoopE_isSome s.grid hg (GRID_HEIGHT + 1) _ hy hub hex
  obtain ⟨stopped, hstop⟩ := Option.isSome_iff_exists.mp hsome
  have hcol := dropLoopE_some_collides s.grid _ _ _ hstop
  have hback := dropLoopE_backup s.grid _ _ _ hnc hstop
  refine ⟨stopped, hstop, hback, ?_, ?_⟩
  · rw [moveDownOne_moveUpOne]
    exact hcol
  · unfold instantDropApply
    rw [hstop]
    simp [hback]

/-- The concrete state for C4: a one-block piece at the top of the empty
grid, which can descend 19 rows. -/
def stateC4 : State :=
  { grid := emptyGrid
    currentTetrimino := [⟨0, 0, "cyan"⟩]
    nextTetrimino := [⟨1, 0, "red"⟩]
    gameOver := false
    userScore := 0
    userLevel := 1
    highScore := 0
    paused := false }

/-- C4 (counterexample): applying InstantDrop to `stateC4` (whose piece can
descend 19 rows) leaves the grid unchanged and keeps the dropped piece as
the current piece — the landing sequence (which would have merged the piece
into the grid, changing it) does not run in that transition. -/
theorem instantDrop_does_not_land :
    (instantDropApply goldTetrimino stateC4).map
        (fun s => (s.grid, s.currentTetrimino, s.gameOver)) =
      some (stateC4.grid, [⟨0, 19, "cyan"⟩], false) ∧
      placeTetrimino [⟨0, 19, "cyan"⟩] stateC4.grid ≠ stateC4.grid := by decide

/-- Witness for C4 (amended) at `stateC4`. -/
theorem instantDrop_no_landing_witness :
    (stateC4.currentTetrimino ≠ [] ∧
        (∀ b ∈ stateC4.currentTetrimino, 0 ≤ b.y) ∧
        stateC4.grid.length = GRID_HEIGHT ∧
        isCollisionDetectedE stateC4.currentTetrimino stateC4.grid =
          some false) ∧
      ∃ stopped,
        dropLoopE stateC4.grid (GRID_HEIGHT + 1) stateC4.currentTetrimino =
            some stopped ∧
          isCollisionDetectedE (moveUpOne stopped) stateC4.grid =
              some false ∧
            isCollisionDetectedE (moveDownOne (moveUpOne stopped))
                stateC4.grid = some true ∧
              instantDropApply goldTetrimino stateC4 =
                some { stateC4 with currentTetrimino := moveUpOne stopped
                                    nextTetrimino := goldTetrimino } :=
  ⟨⟨by decide, by decide, by decide, by decide⟩,
    instantDrop_no_landing stateC4 goldTetrimino (by decide) (by decide)
      (by decide) (by decide)⟩

/-! ### Tick while paused, pause toggling, restart -/

/-- The concrete paused state for C1. -/
def stateC1 : State :=
  { grid := emptyGrid
    currentTetrimino := [⟨0, 0, "cyan"⟩]
    nextTetrimino := [⟨1, 0, "red"⟩]
    gameOver := false
    userScore := 0
    userLevel := 1
    highScore := 0
    paused := true }

/-- C1: `Tick.apply` is NOT a no-op while paused.  Its body never reads
`s.paused` (the pause guard sits only inside `processCollision`), so on a
paused state whose piece can still descend, Tick moves the current piece
down one row and regenerates the preview piece. -/
theorem tick_not_noop_while_paused :
    stateC1.paused = true ∧
      tickApply goldTetrimino stateC1 =
        some { stateC1 with currentTetrimino := [⟨0, 1, "cyan"⟩]
                            nextTetrimino := goldTetrimino } ∧
      ({ stateC1 with currentTetrimino := [⟨0, 1, "cyan"⟩]
                      nextTetrimino := goldTetrimino } : State) ≠ stateC1 := by
  decide

/-- The concrete paused state for C2. -/
def stateC2 : State :=
  { grid := emptyGrid
    currentTetrimino := [⟨0, 0, "cyan"⟩]
    nextTetrimino := [⟨1, 0, "red"⟩]
    gameOver := false
    userScore := 40
    userLevel := 1
    highScore := 40
    paused := true }

/-- C2: `TogglePauseResume.apply` does not negate `s.paused`.  It branches
on the instance's own private `isPaused` flag, which is `false` on every
freshly constructed instance (and the program constructs a new instance per
keypress), so applied to a state with `paused = true` it returns
`paused = true` — not the negation `false`. -/
theorem togglePause_not_negation :
    stateC2.paused = true ∧
      (togglePauseResumeApply false stateC2).2.paused = true ∧
      (togglePauseResumeApply false stateC2).2.paused ≠ !stateC2.paused := by
  decide

/-- C8: Restart preserves exactly the high score; every other field of the
result equals the corresponding field of the module-level initial state
(empty 20×10 grid, score 0, level 1, not paused, not game over, the two
initial pieces). -/
theorem restart_preserves_highScore (p₁ p₂ : Tetrimino) (s : State) :
    (restartApply p₁ p₂ s).highScore = s.highScore ∧
      (restartApply p₁ p₂ s).grid = emptyGrid ∧
      (restartApply p₁ p₂ s).currentTetrimino = p₁ ∧
      (restartApply p₁ p₂ s).nextTetrimino = p₂ ∧
      (restartApply p₁ p₂ s).gameOver = false ∧
      (restartApply p₁ p₂ s).userScore = 0 ∧
      (restartApply p₁ p₂ s).userLevel = 1 ∧
      (restartApply p₁ p₂ s).paused = false :=
  ⟨rfl, rfl, rfl, rfl, rfl, rfl, rfl, rfl⟩

/-! ### The grid shape invariant (C7) -/

theorem forall_mem_mapIdx {α β : Type _} (f : Nat → α → β) (l : List α)
    (P : β → Prop) (h : ∀ i a, a ∈ l → P (f i a)) :
    ∀ b ∈ l.mapIdx f, P b := by
  rw [List.mapIdx_eq_enum_map]
  intro b hb
  rcases List.mem_map.mp hb with ⟨⟨i, a⟩, hia, rfl⟩
  exact h i a (List.getElem?_mem (List.mem_enum_iff_getElem?.mp hia))

theorem setBlock_wf (b : Block) (g : Grid) (hg : gridWellFormed g) :
    gridWellFormed
      (g.mapIdx fun rowIndex row =>
        if (rowIndex : Int) = b.y then
          row.mapIdx fun colIndex cell =>
            if (colIndex : Int) = b.x then true else cell
        else row) := by
  obtain ⟨hlen, hrows⟩ := hg
  constructor
  · rw [List.length_mapIdx, hlen]
  · apply forall_mem_mapIdx
    intro i row hrow
    by_cases hi : (i : Int) = b.y
    · rw [if_pos hi, List.length_mapIdx]
      exact hrows row hrow
    · rw [if_neg hi]
      exact hrows row hrow

theorem placeTetrimino_wf (t : Tetrimino) :
    ∀ g : Grid, gridWellFormed g → gridWellFormed (placeTetrimino t g) := by
  induction t with
  | nil => intro g hg; exact hg
  | cons b rest ih =>
    intro g hg
    unfold placeTetrimino
    rw [List.foldl_cons]
    exact ih _ (setBlock_wf b g hg)

theorem clearLines_wf (g : Grid) (hg : gridWellFormed g) :
    gridWellFormed (clearLines g goldTetrimino).grid := by
  obtain ⟨hlen, hrows⟩ := hg
  have hne : g ≠ [] := by
    intro e
    rw [e] at hlen
    simp [GRID_HEIGHT] at hlen
  obtain ⟨_, hgrid, hlength⟩ := clearLines_split g GRID_WIDTH hne hrows
  constructor
  · rw [hlength, hlen]
  · rw [hgrid]
    intro r hr
    rcases List.mem_append.mp hr with h1 | h2
    · rw [List.eq_of_mem_replicate h1]
      simp
    · exact hrows r (List.mem_of_mem_filter h2)

theorem processCollisionE_wf (s s' : State) (h : processCollisionE s = some s')
    (hg : gridWellFormed s.grid) : gridWellFormed s'.grid := by
  unfold processCollisionE at h
  by_cases hp : s.paused = true
  · rw [if_pos hp] at h
    injection h with h
    subst h
    exact hg
  · rw [if_neg hp] at h
    cases hc : isCollisionDetectedE s.nextTetrimino
        (clearLines (placeTetrimino s.currentTetrimino s.grid)
          goldTetrimino).grid with
    | none => simp [hc] at h
    | some c =>
      simp only [hc, Option.map_some', Option.some.injEq] at h
      subst h
      cases c
      · simp only [Bool.false_eq_true, if_false]
        exact clearLines_wf _ (placeTetrimino_wf _ _ hg)
      · simp only [if_true]
        exact hg

theorem emptyGrid_wf : gridWellFormed emptyGrid := by decide

theorem applyAct_wf (ip : Tetrimino × Tetrimino) (a : Act) (s s' : State)
    (h : applyAct ip a s = some s') (hg : gridWellFormed s.grid) :
    gridWellFormed s'.grid := by
  cases a with
  | tick fresh =>
    simp only [applyAct, tickApply] at h
    cases hc : isCollisionDetectedE (moveDownOne s.currentTetrimino) s.grid with
    | none => rw [hc] at h; cases h
    | some c =>
      rw [hc] at h
      cases c
      · simp only [Bool.false_eq_true, if_false, Option.some_bind] at h
        injection h with h
        subst h
        exact hg
      · simp only [if_true, Option.some_bind] at h
        cases hpc : processCollisionE s with
        | none => rw [hpc] at h; cases h
        | some s₁ =>
          rw [hpc] at h
          injection h with h
          subst h
          exact processCollisionE_wf s s₁ hpc hg
  | left =>
    simp only [applyAct, moveLeftApply] at h
    cases hc : isCollisionDetectedE
        (s.currentTetrimino.map fun block => { block with x := block.x - 1 })
        s.grid with
    | none => rw [hc] at h; cases h
    | some c =>
      rw [hc] at h
      simp only [Option.map_some', Option.some.injEq] at h
      subst h
      split
      · exact hg
      · exact hg
  | right =>
    simp only [applyAct, moveRightApply] at h
    cases hc : isCollisionDetectedE
        (s.currentTetrimino.map fun block => { block with x := block.x + 1 })
        s.grid with
    | none => rw [hc] at h; cases h
    | some c =>
      rw [hc] at h
      simp only [Option.map_some', Option.some.injEq] at h
      subst h
      split
      · exact hg
      · exact hg
  | down fresh =>
    simp only [applyAct, moveDownApply] at h
    cases hc : isCollisionDetectedE (moveDownOne s.currentTetrimino) s.grid with
    | none => rw [hc] at h; cases h
    | some c =>
      rw [hc] at h
      cases c
      · simp only [Bool.false_eq_true, if_false, Option.some_bind] at h
        injection h with h
        subst h
        exact hg
      · simp only [if_true, Option.some_bind] at h
        cases hpc : processCollisionE s with
        | none => rw [hpc] at h; cases h
        | some s₁ =>
          rw [hpc] at h
          injection h with h
          subst h
          exact processCollisionE_wf s s₁ hpc hg
  | rot =>
    simp only [applyAct, rotateApply] at h
    cases hc : isCollisionDetectedE (rotateTetrimino s.currentTetrimino)
        s.grid with
    | none => rw [hc] at h; cases h
    | some c =>
      rw [hc] at h
      cases hw : willExceedEdgesE (rotateTetrimino s.currentTetrimino)
          s.grid with
      | none => rw [hw] at h; cases h
      | some w =>
        rw [hw] at h
        simp only [Option.some_bind, Option.map_some', Option.some.injEq] at h
        subst h
        split
        · exact hg
        · exact hg
  | drop fresh =>
    simp only [applyAct, instantDropApply] at h
    cases hd : dropLoopE s.grid (GRID_HEIGHT + 1) s.currentTetrimino with
    | none => rw [hd] at h; cases h
    | some stopped =>
      rw [hd] at h
      simp only [Option.some_bind] at h
      cases hc : isCollisionDetectedE (moveUpOne stopped) s.grid with
      | none => rw [hc] at h; cases h
      | some c =>
        rw [hc] at h
        cases c
        · simp only [Bool.false_eq_true, if_false, Option.some_bind] at h
          injection h with h
          subst h
          exact hg
        · simp only [if_true, Option.some_bind] at h
          cases hpc : processCollisionE s with
          | none => rw [hpc] at h; cases h
          | some s₁ =>
            rw [hpc] at h
            injection h with h
            subst h
            exact processCollisionE_wf s s₁ hpc hg
  | restart =>
    simp only [applyAct] at h
    injection h with h
    subst h
    exact emptyGrid_wf
  | pause flag =>
    simp only [applyAct, togglePauseResumeApply] at h
    cases flag
    · injection h with h
      subst h
      exact hg
    · injection h with h
      subst h
      exact hg

/-- C7: every state reachable from the initial state by a successful run
of any action sequence (Tick, MoveLeft, MoveRight, MoveDown, Rotate,
InstantDrop, Restart, TogglePauseResume, with arbitrary generated pieces)
has a grid of exactly `GRID_HEIGHT` rows, each of exactly `GRID_WIDTH`
cells. -/
theorem reachable_grid_wellFormed (ip : Tetrimino × Tetrimino)
    (acts : List Act) (s' : State) (h : runActs ip acts = some s') :
    gridWellFormed s'.grid := by
  unfold runActs at h
  have main : ∀ (l : List Act) (s t : State), gridWellFormed s.grid →
      l.foldlM (fun s a => applyAct ip a s) s = some t →
      gridWellFormed t.grid := by
    intro l
    induction l with
    | nil =>
      intro s t hs hfold
      injection hfold with hfold
      subst hfold
      exact hs
    | cons a rest ih =>
      intro s t hs hfold
      rw [List.foldlM_cons] at hfold
      cases ha : applyAct ip a s with
      | none => rw [ha] at hfold; cases hfold
      | some s₁ =>
        rw [ha] at hfold
        exact ih s₁ t (applyAct_wf ip a s s₁ ha hs) hfold
  exact main acts (initialState ip.1 ip.2) s' emptyGrid_wf h

/-- Witness for C7: the empty run reaches the initial state, whose grid is
well-formed. -/
theorem reachable_grid_wellFormed_witness :
    runActs (goldTetrimino, goldTetrimino) [] =
        some (initialState goldTetrimino goldTetrimino) ∧
      gridWellFormed (initialState goldTetrimino goldTetrimino).grid :=
  ⟨rfl,
    reachable_grid_wellFormed (goldTetrimino, goldTetrimino) [] _ rfl⟩

end Tetris
